import Mathlib

/-!
Verification of the print-orchestration core of PrinterMatiasERP (src/main.go).

The Go source is shallowly embedded: pure string processing is translated
function by function (strings.Split, strings.SplitN with limit 2,
strings.TrimSpace, strings.Contains become the char-list functions below);
the effectful parts (the PowerShell enumeration, the HTTP GET, the temp
file, the external print and drawer tools, os.Remove) are modelled by an
environment record describing the outcome of each external interaction,
and every operation additionally returns the event trace of the external
actions it performed and the log lines it wrote, so that ordering and
cleanup claims can be stated.
-/

namespace PrinterMatias

/-! ### Character-list string primitives (Go strings package) -/

/-- Go strings.Split with a one-character separator: splits around every
occurrence of the separator, keeping empty fields; the empty string yields
one empty field. -/
def splitCh (c : Char) : List Char → List (List Char)
  | [] => [[]]
  | x :: xs =>
    if x = c then [] :: splitCh c xs
    else
      match splitCh c xs with
      | [] => [[x]]
      | h :: t => (x :: h) :: t

/-- Go strings.SplitN(s, sep, 2) with a one-character separator: at most two
parts, split at the first occurrence; if the separator is absent the whole
string is the single part. -/
def splitN2 (c : Char) (s : List Char) : List (List Char) :=
  if c ∈ s then [s.takeWhile (fun a => a != c), (s.dropWhile (fun a => a != c)).drop 1]
  else [s]

/-- Does the string (first argument) start with the pattern (second argument)? -/
def chStartsWith : List Char → List Char → Bool
  | _, [] => true
  | [], _ :: _ => false
  | a :: s, b :: pat => a == b && chStartsWith s pat

/-- Go strings.Contains: does the pattern (second argument) occur as a
contiguous substring of the string (first argument)? -/
def chContains : List Char → List Char → Bool
  | [], pat => chStartsWith [] pat
  | s@(_ :: rest), pat => chStartsWith s pat || chContains rest pat

/-- Go strings.Contains lifted to String. -/
def goContains (s sub : String) : Bool := chContains s.data sub.data

/-- Go strings.TrimSpace (ASCII whitespace suffices for the enumeration
lines handled here). -/
def trimChars (s : List Char) : List Char :=
  ((s.dropWhile Char.isWhitespace).reverse.dropWhile Char.isWhitespace).reverse

/-! ### parsePrinterDetails (src/main.go lines 408-419) -/

/-- The loop body of parsePrinterDetails: each property token must split at
its first equals sign into exactly two parts; a token with no equals sign
aborts the whole line with an error (modelled as none). Pairs are kept in
token order; the Go map they populate is read through mapGet below, whose
later-binding-wins lookup matches Go map assignment semantics. -/
def parseProps : List (List Char) → Option (List (String × String))
  | [] => some []
  | p :: ps =>
    match splitN2 '=' p with
    | [k, v] => (parseProps ps).map (fun m => (String.mk k, String.mk v) :: m)
    | _ => none

/-- parsePrinterDetails: split the line on semicolons, then each property
token on its first equals sign (strings.SplitN with limit 2); any token
that does not produce a key and a value makes the whole line malformed. -/
def parsePrinterDetails (details : String) : Option (List (String × String)) :=
  parseProps (splitCh ';' details.data)

/-- Lookup in the insertion-ordered binding list produced by
parsePrinterDetails, with the Go map semantics that a later assignment to
the same key overwrites an earlier one: the most recent binding wins. -/
def mapGet (m : List (String × String)) (k : String) : Option String :=
  (m.reverse.find? (fun p => p.1 == k)).map (fun p => p.2)

/-! ### Model of the effectful environment

External interactions (the PowerShell enumeration process, the HTTP GET,
the temp file creation and body copy, the external print tool, the drawer
command, os.Remove) are modelled by an Env record fixing the outcome of
each interaction, and the operations return the trace of external events
they performed together with the log lines they emitted. -/

/-- One external action performed by the service. -/
inductive Event
  /-- The powershell Get-Printer enumeration process was spawned
  (WindowsPrinterManager.ListPrinters). -/
  | enumSpawn
  /-- An HTTP GET of the given URL was issued (downloadFile). -/
  | httpGet (url : String)
  /-- The external PDF print tool was spawned on the given file and
  printer (ExternalDocumentPrinter.PrintFile). -/
  | printSpawn (file printer : String)
  /-- The drawer-open powershell command was spawned for the given printer
  (WindowsDrawerOpener.OpenDrawer). -/
  | drawerSpawn (printer : String)
deriving DecidableEq

/-- Does the event spawn an external process? The HTTP GET is network I/O,
not a process launch. -/
def isProcessSpawn : Event → Bool
  | Event.enumSpawn => true
  | Event.printSpawn _ _ => true
  | Event.drawerSpawn _ => true
  | Event.httpGet _ => false

/-- The failure cases of the service, one constructor per distinct error
return in src/main.go (wrapping with fmt.Errorf only decorates the
message, so it is not modelled separately). -/
inductive PrintError
  /-- The enumeration command failed (cmd.Run error in ListPrinters). -/
  | enumFailed
  /-- The named printer was not found in the enumeration. -/
  | unknownPrinter (name : String)
  /-- url.ParseRequestURI rejected the URL ("URL invalida"). -/
  | invalidURL (url : String)
  /-- "esquema de URL no soportado: %s" -/
  | unsupportedScheme (s : String)
  /-- client.Get returned a transport error. -/
  | fetchTransport
  /-- The server returned a non-OK status. -/
  | fetchStatus (code : Nat)
  /-- os.CreateTemp failed. -/
  | fetchCreateTemp
  /-- io.Copy of the response body failed. -/
  | fetchCopy
  /-- The external print tool exited nonzero. -/
  | printFailed
  /-- The drawer command exited nonzero. -/
  | drawerFailed
deriving DecidableEq

/-- Outcomes of every external interaction a single service call can
perform, fixed up front so the operations are pure functions of it. -/
structure Env where
  /-- some out: the enumeration command succeeded with stdout out;
  none: cmd.Run failed. -/
  enumOutput : Option String
  /-- some code: the HTTP GET completed with this status code;
  none: transport error (DNS, refused, timeout). -/
  getStatus : Option Nat
  /-- The path os.CreateTemp picks for the temporary file. -/
  tempPath : String
  /-- Whether os.CreateTemp succeeds. -/
  createOk : Bool
  /-- Whether io.Copy of the response body succeeds. -/
  copyOk : Bool
  /-- Whether the external print tool exits 0. -/
  printOk : Bool
  /-- Whether the drawer command exits 0. -/
  drawerOk : Bool
  /-- Whether os.Remove of the temporary file succeeds. -/
  removeOk : Bool

/-- Filesystem (list of existing temp-file paths), event trace and log
lines at the end of a PrintPDFFromURL call. -/
structure RunState where
  fs : List String
  events : List Event
  logs : List String
deriving DecidableEq

/-! ### WindowsPrinterManager (src/main.go lines 202-250) -/

/-- The line post-processing of ListPrinters: split stdout on newlines,
trim each line, drop blank lines. -/
def listPrintersFromOutput (out : String) : List String :=
  ((splitCh '\n' out.data).map (fun l => String.mk (trimChars l))).filter
    (fun s => s != "")

/-- WindowsPrinterManager.ListPrinters: spawn the enumeration command; on
failure surface the error, otherwise return the trimmed non-blank output
lines. -/
def ListPrinters (enumOutput : Option String) :
    Except PrintError (List String) × List Event :=
  match enumOutput with
  | none => (Except.error PrintError.enumFailed, [Event.enumSpawn])
  | some out => (Except.ok (listPrintersFromOutput out), [Event.enumSpawn])

/-- WindowsPrinterManager.PrinterExists: list the printers and report
whether some line contains the text "Name=" ++ name ++ ";"
(strings.Contains, src/main.go line 245). -/
def PrinterExists (enumOutput : Option String) (name : String) :
    Except PrintError Bool × List Event :=
  match ListPrinters enumOutput with
  | (Except.error e, evs) => (Except.error e, evs)
  | (Except.ok printers, evs) =>
    (Except.ok (printers.any (fun p => goContains p ("Name=" ++ name ++ ";"))), evs)

/-! ### DefaultPrinterService (src/main.go lines 301-419) -/

/-- The GetPrinters loop: parse each line; a malformed line is logged and
skipped, a well-formed one is appended. -/
def getPrintersLoop : List String → List (List (String × String)) × List String
  | [] => ([], [])
  | l :: ls =>
    match parsePrinterDetails l, getPrintersLoop ls with
    | some m, (ms, logs) => (m :: ms, logs)
    | none, (ms, logs) =>
      (ms, ("Error al parsear detalles de impresora: " ++ l) :: logs)

/-- DefaultPrinterService.GetPrinters: list printers, then parse each line,
skipping malformed lines with a logged error. Returns the result, the
event trace and the log lines. -/
def GetPrinters (enumOutput : Option String) :
    Except PrintError (List (List (String × String))) × List Event × List String :=
  match ListPrinters enumOutput with
  | (Except.error e, evs) => (Except.error e, evs, [])
  | (Except.ok lines, evs) =>
    match getPrintersLoop lines with
    | (ms, logs) => (Except.ok ms, evs, logs)

/-- downloadFile (src/main.go lines 381-405): issue the GET; a transport
error or non-OK status fails before any file is created; after
os.CreateTemp succeeds the temp file exists, and a failing io.Copy returns
the error without removing it (only the deferred Close runs). -/
def downloadFile (env : Env) (fileURL : String) (fs : List String) :
    Except PrintError String × List String × List Event :=
  match env.getStatus with
  | none => (Except.error PrintError.fetchTransport, fs, [Event.httpGet fileURL])
  | some code =>
    if code ≠ 200 then
      (Except.error (PrintError.fetchStatus code), fs, [Event.httpGet fileURL])
    else if env.createOk = false then
      (Except.error PrintError.fetchCreateTemp, fs, [Event.httpGet fileURL])
    else if env.copyOk = false then
      (Except.error PrintError.fetchCopy, env.tempPath :: fs, [Event.httpGet fileURL])
    else
      (Except.ok env.tempPath, env.tempPath :: fs, [Event.httpGet fileURL])

/-! ### net/url.ParseRequestURI (Go standard library, called at
src/main.go line 339)

Only the parts the service inspects are modelled: the control-byte check,
scheme extraction (the getScheme loop of net/url), lowercasing of the
scheme, and the absolute-URI requirement of ParseRequestURI. Query
splitting and percent-escape validation of the remainder are omitted;
they do not change the scheme nor the scheme-based decisions modelled
here. -/

/-- A character the getScheme loop of net/url accepts after the first:
ASCII letter, digit, plus, minus or dot. -/
def isSchemeByte (c : Char) : Bool :=
  c.isAlpha || c.isDigit || c == '+' || c == '-' || c == '.'

/-- The tail of the getScheme loop: accumulate scheme characters until a
colon; any other character means the string has no scheme and is all
remainder. -/
def getSchemeTail (acc : List Char) (raw : List Char) :
    List Char → Option (List Char × List Char)
  | [] => some ([], raw)
  | c :: cs =>
    if isSchemeByte c then getSchemeTail (acc ++ [c]) raw cs
    else if c == ':' then some (acc, cs)
    else some ([], raw)

/-- The getScheme function of net/url: the first character must be an
ASCII letter for a scheme to start; a leading colon is an error (none);
anything else means no scheme. Returns (scheme, remainder). -/
def getSchemeGo (raw : List Char) : Option (List Char × List Char) :=
  match raw with
  | [] => some ([], raw)
  | c :: cs =>
    if c.isAlpha then getSchemeTail [c] raw cs
    else if c == ':' then none
    else some ([], raw)

/-- net/url rejects URLs containing an ASCII control byte. -/
def containsCTL (s : String) : Bool :=
  s.data.any (fun c => c.toNat < 32 || c.toNat == 127)

/-- The fields of the parsed URL the service reads. -/
structure GoURL where
  scheme : String
  rest : String
deriving DecidableEq

/-- url.ParseRequestURI: reject control bytes and the empty string; "*" is
accepted as-is; extract and lowercase the scheme; the remainder must start
with a slash unless a scheme made the URL absolute (rootless remainders of
scheme-ful URLs are opaque and accepted); otherwise the URL is not valid
for a request. -/
def parseRequestURI (rawURL : String) : Option GoURL :=
  if containsCTL rawURL then none
  else if rawURL = "" then none
  else if rawURL = "*" then some ⟨"", "*"⟩
  else
    match getSchemeGo rawURL.data with
    | none => none
    | some (sch, rest) =>
      let scheme := String.mk (sch.map Char.toLower)
      match rest with
      | '/' :: _ => some ⟨scheme, String.mk rest⟩
      | _ => if scheme ≠ "" then some ⟨scheme, String.mk rest⟩ else none

/-! ### The orchestrated operations (src/main.go lines 330-378) -/

/-- DefaultPrinterService.PrintPDFFromURL: check the printer exists (the
enumeration spawn happens here), validate the URL and its scheme, download
the file, log the download, invoke the print tool, and finally (deferred)
attempt to delete the temporary file, logging a deletion failure without
changing the returned value. -/
def PrintPDFFromURL (env : Env) (fs0 : List String) (fileURL printerName : String) :
    Except PrintError Unit × RunState :=
  match PrinterExists env.enumOutput printerName with
  | (Except.error e, evs) => (Except.error e, ⟨fs0, evs, []⟩)
  | (Except.ok ex, evs) =>
    if ex then
      match parseRequestURI fileURL with
      | none => (Except.error (PrintError.invalidURL fileURL), ⟨fs0, evs, []⟩)
      | some u =>
        if u.scheme != "http" && u.scheme != "https" then
          (Except.error (PrintError.unsupportedScheme u.scheme), ⟨fs0, evs, []⟩)
        else
          match downloadFile env fileURL fs0 with
          | (Except.error e, fs1, evs1) => (Except.error e, ⟨fs1, evs ++ evs1, []⟩)
          | (Except.ok path, fs1, evs1) =>
            let printRes : Except PrintError Unit :=
              if env.printOk then Except.ok () else Except.error PrintError.printFailed
            let cleanup : List String × List String :=
              if env.removeOk then (fs1.erase path, [])
              else (fs1, ["Error al eliminar archivo temporal"])
            (printRes,
             ⟨cleanup.1, evs ++ evs1 ++ [Event.printSpawn path printerName],
              ("Archivo descargado: " ++ path) :: cleanup.2⟩)
    else (Except.error (PrintError.unknownPrinter printerName), ⟨fs0, evs, []⟩)

/-- DefaultPrinterService.OpenDrawer: check the printer exists, then spawn
the drawer command, surfacing a nonzero exit as an error. -/
def OpenDrawer (env : Env) (printerName : String) :
    Except PrintError Unit × List Event :=
  match PrinterExists env.enumOutput printerName with
  | (Except.error e, evs) => (Except.error e, evs)
  | (Except.ok ex, evs) =>
    if ex then
      ((if env.drawerOk then Except.ok () else Except.error PrintError.drawerFailed),
       evs ++ [Event.drawerSpawn printerName])
    else (Except.error (PrintError.unknownPrinter printerName), evs)

/-- The errors the spec groups as validation errors: bad or missing URL
scheme, invalid URL, unknown printer. -/
def isValidationErr : PrintError → Bool
  | PrintError.unknownPrinter _ => true
  | PrintError.invalidURL _ => true
  | PrintError.unsupportedScheme _ => true
  | _ => false

/-- A concrete environment for witnesses: one installed printer named HP,
all external interactions succeed. -/
def envHP : Env :=
  { enumOutput := some "Name=HP;DriverName=d;PortName=p;PrinterStatus=Normal;Location=Desk",
    getStatus := some 200, tempPath := "/tmp/doc.pdf", createOk := true, copyOk := true,
    printOk := true, drawerOk := true, removeOk := true }

/-! ### Helper lemmas on the string primitives -/

theorem chStartsWith_iff (pat : List Char) : ∀ s : List Char,
    chStartsWith s pat = true ↔ ∃ r, s = pat ++ r := by
  induction pat with
  | nil =>
    intro s
    simp only [chStartsWith]
    exact iff_of_true trivial ⟨s, rfl⟩
  | cons b bs ih =>
    intro s
    cases s with
    | nil =>
      simp only [chStartsWith]
      exact iff_of_false (by simp) (by rintro ⟨r, h⟩; exact List.noConfusion h)
    | cons a as =>
      simp only [chStartsWith, Bool.and_eq_true, beq_iff_eq, ih as, List.cons_append,
        List.cons.injEq]
      constructor
      · rintro ⟨rfl, r, rfl⟩
        exact ⟨r, rfl, rfl⟩
      · rintro ⟨r, rfl, rfl⟩
        exact ⟨rfl, r, rfl⟩

theorem chContains_iff (pat s : List Char) :
    chContains s pat = true ↔ ∃ t u, s = t ++ pat ++ u := by
  induction s with
  | nil =>
    rw [show chContains [] pat = chStartsWith [] pat from rfl, chStartsWith_iff]
    constructor
    · rintro ⟨r, hr⟩
      exact ⟨[], r, hr⟩
    · rintro ⟨t, u, h⟩
      obtain ⟨h1, h2⟩ := List.append_eq_nil.mp h.symm
      obtain ⟨h3, h4⟩ := List.append_eq_nil.mp h1
      subst h4
      exact ⟨[], rfl⟩
  | cons a as ih =>
    rw [show chContains (a :: as) pat =
        (chStartsWith (a :: as) pat || chContains as pat) from rfl]
    rw [Bool.or_eq_true, chStartsWith_iff pat, ih]
    constructor
    · rintro (⟨r, hr⟩ | ⟨t, u, hu⟩)
      · exact ⟨[], r, hr⟩
      · exact ⟨a :: t, u, by rw [hu]; rfl⟩
    · rintro ⟨t, u, h⟩
      cases t with
      | nil => exact Or.inl ⟨u, h⟩
      | cons c t2 =>
        simp only [List.cons_append, List.cons.injEq] at h
        obtain ⟨rfl, h2⟩ := h
        exact Or.inr ⟨t2, u, h2⟩

theorem takeWhile_until_eq (k v : List Char) (hk : '=' ∉ k) :
    (k ++ '=' :: v).takeWhile (fun a => a != '=') = k := by
  induction k with
  | nil => simp [List.takeWhile_cons]
  | cons a as ih =>
    have ha : a ≠ '=' := fun h => hk (h ▸ List.mem_cons_self a as)
    rw [List.cons_append, List.takeWhile_cons]
    simp only [bne_iff_ne, ne_eq, ha, not_false_eq_true, if_true, ite_true]
    rw [ih (fun h => hk (List.mem_cons_of_mem a h))]

theorem dropWhile_until_eq (k v : List Char) (hk : '=' ∉ k) :
    (k ++ '=' :: v).dropWhile (fun a => a != '=') = '=' :: v := by
  induction k with
  | nil => simp [List.dropWhile_cons]
  | cons a as ih =>
    have ha : a ≠ '=' := fun h => hk (h ▸ List.mem_cons_self a as)
    rw [List.cons_append, List.dropWhile_cons]
    simp only [bne_iff_ne, ne_eq, ha, not_false_eq_true, if_true, ite_true]
    exact ih (fun h => hk (List.mem_cons_of_mem a h))

theorem splitN2_first_eq (k v : List Char) (hk : '=' ∉ k) :
    splitN2 '=' (k ++ '=' :: v) = [k, v] := by
  unfold splitN2
  rw [if_pos (List.mem_append_right k (List.mem_cons_self '=' v))]
  rw [takeWhile_until_eq k v hk, dropWhile_until_eq k v hk]
  rfl

theorem splitN2_no_eq (tok : List Char) (h : '=' ∉ tok) :
    splitN2 '=' tok = [tok] := by
  unfold splitN2
  rw [if_neg h]

theorem parseProps_none (props : List (List Char)) (tok : List Char)
    (ht : tok ∈ props) (h : '=' ∉ tok) : parseProps props = none := by
  induction props with
  | nil => cases ht
  | cons p ps ih =>
    rcases List.mem_cons.mp ht with rfl | hmem
    · simp only [parseProps, splitN2_no_eq tok h]
    · simp only [parseProps]
      cases hsp : splitN2 '=' p with
      | nil => rfl
      | cons kk rest =>
        cases rest with
        | nil => rfl
        | cons vv rest2 =>
          cases rest2 with
          | nil => rw [ih hmem]; rfl
          | cons w ws => rfl

theorem parseProps_some (props : List (List Char)) (m : List (String × String))
    (h : parseProps props = some m) :
    m = props.map (fun t =>
      (String.mk (t.takeWhile (fun a => a != '=')),
       String.mk ((t.dropWhile (fun a => a != '=')).drop 1))) := by
  induction props generalizing m with
  | nil =>
    simp only [parseProps, Option.some.injEq] at h
    subst h
    rfl
  | cons p ps ih =>
    rw [parseProps] at h
    cases hsp : splitN2 '=' p with
    | nil => rw [hsp] at h; cases h
    | cons kk rest =>
      cases rest with
      | nil => rw [hsp] at h; cases h
      | cons vv rest2 =>
        cases rest2 with
        | cons w ws => rw [hsp] at h; cases h
        | nil =>
          rw [hsp] at h
          cases hps : parseProps ps with
          | none => rw [hps] at h; cases h
          | some m2 =>
            rw [hps] at h
            have h2 : ((String.mk kk, String.mk vv) :: m2) = m := by
              simpa using h
            have hkv : kk = p.takeWhile (fun a => a != '=') ∧
                vv = (p.dropWhile (fun a => a != '=')).drop 1 := by
              unfold splitN2 at hsp
              by_cases hmem : '=' ∈ p
              · rw [if_pos hmem] at hsp
                simp only [List.cons.injEq] at hsp
                exact ⟨hsp.1.symm, hsp.2.1.symm⟩
              · rw [if_neg hmem] at hsp
                simp at hsp
            subst h2
            rw [List.map_cons, ← hkv.1, ← hkv.2, ← ih m2 hps]

theorem mapGet_concat (m : List (String × String)) (q : String × String) (k : String) :
    mapGet (m ++ [q]) k = if q.1 == k then some q.2 else mapGet m k := by
  unfold mapGet
  rw [List.reverse_append]
  simp only [List.reverse_cons, List.reverse_nil, List.nil_append, List.cons_append,
    List.find?]
  cases hq : (q.1 == k) <;> simp [hq]

theorem mapGet_eq_last (m : List (String × String)) (k : String) :
    mapGet m k = ((m.filter (fun q => q.1 == k)).map (fun q => q.2)).getLast? := by
  induction m using List.reverseRecOn with
  | nil => rfl
  | append_singleton m q ih =>
    rw [mapGet_concat, List.filter_append, List.map_append]
    cases hq : (q.1 == k) with
    | true => simp [hq, List.getLast?_concat]
    | false => simp [hq, ih]

theorem length_filterMap_isSome {α β : Type} (l : List α) (f : α → Option β) :
    (l.filterMap f).length = (l.filter (fun x => (f x).isSome)).length := by
  induction l with
  | nil => rfl
  | cons a as ih =>
    rw [List.filterMap_cons, List.filter_cons]
    cases f a <;> simp [ih]

theorem getPrintersLoop_spec (lines : List String) :
    getPrintersLoop lines =
      (lines.filterMap parsePrinterDetails,
       (lines.filter (fun l => (parsePrinterDetails l).isNone)).map
         (fun l => "Error al parsear detalles de impresora: " ++ l)) := by
  induction lines with
  | nil => rfl
  | cons l ls ih =>
    simp only [getPrintersLoop, ih, List.filterMap_cons, List.filter_cons]
    cases hp : parsePrinterDetails l <;> simp [hp]

theorem printerExists_events (e : Option String) (n : String) :
    (PrinterExists e n).2 = [Event.enumSpawn] := by
  cases e <;> rfl

theorem printerExists_pair (e : Option String) (n : String) (b : Bool)
    (h : (PrinterExists e n).1 = Except.ok b) :
    PrinterExists e n = (Except.ok b, [Event.enumSpawn]) :=
  Prod.ext_iff.mpr ⟨h, printerExists_events e n⟩

theorem downloadFile_removeOk (env : Env) (b : Bool) (fileURL : String)
    (fs : List String) :
    downloadFile { env with removeOk := b } fileURL fs = downloadFile env fileURL fs := rfl

theorem downloadFile_err_not_validation (env : Env) (fileURL : String)
    (fs : List String) (e : PrintError)
    (h : (downloadFile env fileURL fs).1 = Except.error e) :
    isValidationErr e = false := by
  unfold downloadFile at h
  split at h
  · injection h with h
    subst h
    rfl
  · split at h
    · injection h with h
      subst h
      rfl
    · split at h
      · injection h with h
        subst h
        rfl
      · split at h
        · injection h with h
          subst h
          rfl
        · exact Except.noConfusion h

/-! ### Claim theorems -/

/-- C1 (counterexample): PrinterExists does not test the Name field for
exact equality. With a single record whose Name is X but whose PortName is
HP, the enumeration line is
Name=X;DriverName=d;PortName=HP;PrinterStatus=Normal;Location=Desk, which
contains the text Name=HP; inside ...PortName=HP;..., so exists(HP)
returns true even though no record has Name equal to HP. -/
theorem printerExists_not_exact_cex :
    (PrinterExists
      (some "Name=X;DriverName=d;PortName=HP;PrinterStatus=Normal;Location=Desk")
      "HP").1 = Except.ok true ∧
    (((listPrintersFromOutput
        "Name=X;DriverName=d;PortName=HP;PrinterStatus=Normal;Location=Desk").filterMap
        parsePrinterDetails).all (fun m => mapGet m "Name" != some "HP")) = true :=
  ⟨rfl, by decide⟩

/-- C1 (amended): PrinterExists(name) is true precisely when some trimmed
non-blank enumeration line contains the text Name= ++ name ++ ; as a
contiguous substring. In the standard first-field-is-Name line format this
holds whenever some record is named name, but text inside another field
(such as a PortName or DriverName equal to name) also makes it true, so
the match is by substring, not by exact Name-field equality. -/
theorem printerExists_substring_iff (out name : String) :
    ∃ b, (PrinterExists (some out) name).1 = Except.ok b ∧
      (b = true ↔ ∃ l ∈ listPrintersFromOutput out,
        ∃ t u, l.data = t ++ ("Name=" ++ name ++ ";").data ++ u) := by
  refine ⟨(listPrintersFromOutput out).any
    (fun p => goContains p ("Name=" ++ name ++ ";")), rfl, ?_⟩
  simp only [List.any_eq_true, goContains, chContains_iff]

/-- C6: for every enumeration output, GetPrinters succeeds and returns one
record per well-formed line in line order (the filterMap of the parser
over the lines), its record count equals the number of well-formed lines,
and it logs one warning per malformed line instead of aborting. -/
theorem getPrinters_skips_malformed (out : String) :
    (GetPrinters (some out)).1 =
      Except.ok ((listPrintersFromOutput out).filterMap parsePrinterDetails) ∧
    ((listPrintersFromOutput out).filterMap parsePrinterDetails).length =
      ((listPrintersFromOutput out).filter
        (fun l => (parsePrinterDetails l).isSome)).length ∧
    (GetPrinters (some out)).2.2.length =
      ((listPrintersFromOutput out).filter
        (fun l => (parsePrinterDetails l).isNone)).length := by
  have h := getPrintersLoop_spec (listPrintersFromOutput out)
  refine ⟨?_, length_filterMap_isSome _ _, ?_⟩
  · show (match getPrintersLoop (listPrintersFromOutput out) with
      | (ms, logs) => (Except.ok ms, [Event.enumSpawn], logs)).1 = _
    rw [h]
  · show (match getPrintersLoop (listPrintersFromOutput out) with
      | (ms, logs) => (Except.ok ms, [Event.enumSpawn], logs)).2.2.length = _
    rw [h]
    exact List.length_map _ _

/-- C8: a property token is split at its first equals sign only: for a
token k ++ = ++ v whose key part k has no equals sign, the key is k and
the value is all of v, equals signs included; and a token containing no
equals sign at all makes parsePrinterDetails reject the whole line. -/
theorem parse_token_split_semantics :
    (∀ k v : List Char, '=' ∉ k → splitN2 '=' (k ++ '=' :: v) = [k, v]) ∧
    (∀ (line : String) (tok : List Char),
      tok ∈ splitCh ';' line.data → '=' ∉ tok → parsePrinterDetails line = none) :=
  ⟨fun k v hk => splitN2_first_eq k v hk,
   fun _ tok ht h => parseProps_none _ tok ht h⟩

/-- C8 witness: the token a=b=c splits into key a and value b=c, and the
line Name=HP;No (whose second token No has no equals sign) is rejected. -/
theorem parse_token_split_semantics_witness :
    ('=' ∉ (['a'] : List Char)) ∧
    splitN2 '=' (['a'] ++ '=' :: ['b', '=', 'c']) = [['a'], ['b', '=', 'c']] ∧
    ((['N', 'o'] : List Char) ∈ splitCh ';' "Name=HP;No".data) ∧
    ('=' ∉ (['N', 'o'] : List Char)) ∧
    parsePrinterDetails "Name=HP;No" = none :=
  ⟨by decide, parse_token_split_semantics.1 ['a'] ['b', '=', 'c'] (by decide),
   by decide, by decide,
   parse_token_split_semantics.2 "Name=HP;No" ['N', 'o'] (by decide) (by decide)⟩

/-- C10: on a well-formed line the parsed record keeps one key/value pair
per token in token order, and looking a key up yields the value of its
last occurrence (later pairs overwrite earlier ones, as with Go map
assignment); a duplicated key does not make the line malformed. -/
theorem parse_duplicate_key_last_wins (line : String) (m : List (String × String))
    (k : String) (h : parsePrinterDetails line = some m) :
    m = (splitCh ';' line.data).map (fun t =>
      (String.mk (t.takeWhile (fun a => a != '=')),
       String.mk ((t.dropWhile (fun a => a != '=')).drop 1))) ∧
    mapGet m k = ((m.filter (fun q => q.1 == k)).map (fun q => q.2)).getLast? :=
  ⟨parseProps_some _ m h, mapGet_eq_last m k⟩

/-- C10 witness: the line Name=A;Name=B parses (well-formed despite the
duplicate key) and its record maps Name to B, the value of the last
occurrence. -/
theorem parse_duplicate_key_last_wins_witness :
    parsePrinterDetails "Name=A;Name=B" = some [("Name", "A"), ("Name", "B")] ∧
    (([("Name", "A"), ("Name", "B")] : List (String × String)) =
      (splitCh ';' "Name=A;Name=B".data).map (fun t =>
        (String.mk (t.takeWhile (fun a => a != '=')),
         String.mk ((t.dropWhile (fun a => a != '=')).drop 1))) ∧
     mapGet [("Name", "A"), ("Name", "B")] "Name" =
       ((([("Name", "A"), ("Name", "B")] : List (String × String)).filter
          (fun q => q.1 == "Name")).map (fun q => q.2)).getLast?) ∧
    mapGet [("Name", "A"), ("Name", "B")] "Name" = some "B" :=
  ⟨by decide, parse_duplicate_key_last_wins "Name=A;Name=B" _ "Name" (by decide),
   by decide⟩

/-- C3: when the existence check reports that the named printer does not
exist, PrintPDFFromURL returns the unknown-printer error, the filesystem
is untouched, and the event trace is exactly the enumeration spawn of the
existence check: no HTTP fetch is issued and the external print tool is
never invoked, so the existence check precedes both. -/
theorem printPDF_unknown_printer_no_side_effects (env : Env) (fs0 : List String)
    (fileURL printerName : String)
    (h : (PrinterExists env.enumOutput printerName).1 = Except.ok false) :
    PrintPDFFromURL env fs0 fileURL printerName =
      (Except.error (PrintError.unknownPrinter printerName),
       ⟨fs0, [Event.enumSpawn], []⟩) := by
  unfold PrintPDFFromURL
  rw [printerExists_pair env.enumOutput printerName false h]
  rfl

/-- C3 witness: the envHP enumeration has no printer named Ghost, and
printing to Ghost fails with the unknown-printer error after only the
enumeration spawn. -/
theorem printPDF_unknown_printer_no_side_effects_witness :
    (PrinterExists envHP.enumOutput "Ghost").1 = Except.ok false ∧
    PrintPDFFromURL envHP [] "http://x/doc.pdf" "Ghost" =
      (Except.error (PrintError.unknownPrinter "Ghost"),
       ⟨[], [Event.enumSpawn], []⟩) :=
  ⟨rfl, printPDF_unknown_printer_no_side_effects envHP [] "http://x/doc.pdf" "Ghost" rfl⟩

/-- C7: when the existence check reports that the named printer does not
exist, OpenDrawer returns the unknown-printer error and the event trace is
exactly the enumeration spawn: the drawer command is never invoked. -/
theorem openDrawer_unknown_printer_no_dispatch (env : Env) (printerName : String)
    (h : (PrinterExists env.enumOutput printerName).1 = Except.ok false) :
    OpenDrawer env printerName =
      (Except.error (PrintError.unknownPrinter printerName), [Event.enumSpawn]) := by
  unfold OpenDrawer
  rw [printerExists_pair env.enumOutput printerName false h]
  rfl

/-- C7 witness: opening the drawer of the absent printer Ghost fails with
the unknown-printer error and spawns only the enumeration process. -/
theorem openDrawer_unknown_printer_no_dispatch_witness :
    (PrinterExists envHP.enumOutput "Ghost").1 = Except.ok false ∧
    OpenDrawer envHP "Ghost" =
      (Except.error (PrintError.unknownPrinter "Ghost"), [Event.enumSpawn]) :=
  ⟨rfl, openDrawer_unknown_printer_no_dispatch envHP "Ghost" rfl⟩

/-- C5: with an existing printer, a URL that the request-URI parser
rejects, or that parses with a scheme other than http or https, makes
PrintPDFFromURL fail with a validation error (invalid URL or unsupported
scheme) while the event trace stays exactly the enumeration spawn: the
fetch (downloadFile, which would add an httpGet event) is never invoked
and the filesystem is untouched. -/
theorem printPDF_bad_url_no_fetch (env : Env) (fs0 : List String)
    (fileURL printerName : String)
    (hex : (PrinterExists env.enumOutput printerName).1 = Except.ok true)
    (hbad : ∀ u, parseRequestURI fileURL = some u →
      u.scheme ≠ "http" ∧ u.scheme ≠ "https") :
    ∃ e, PrintPDFFromURL env fs0 fileURL printerName =
        (Except.error e, ⟨fs0, [Event.enumSpawn], []⟩) ∧
      (e = PrintError.invalidURL fileURL ∨
        ∃ s, e = PrintError.unsupportedScheme s) := by
  unfold PrintPDFFromURL
  rw [printerExists_pair env.enumOutput printerName true hex]
  cases hu : parseRequestURI fileURL with
  | none => exact ⟨PrintError.invalidURL fileURL, rfl, Or.inl rfl⟩
  | some u =>
    have hb : (u.scheme != "http" && u.scheme != "https") = true := by
      obtain ⟨h1, h2⟩ := hbad u hu
      simp [h1, h2]
    refine ⟨PrintError.unsupportedScheme u.scheme, ?_, Or.inr ⟨u.scheme, rfl⟩⟩
    simp [hb]

/-- C5 witness: with printer HP installed, the URL file:///etc/passwd
parses with scheme file, so the call fails with the unsupported-scheme
error and the only event is the enumeration spawn. -/
theorem printPDF_bad_url_no_fetch_witness :
    (PrinterExists envHP.enumOutput "HP").1 = Except.ok true ∧
    (∀ u, parseRequestURI "file:///etc/passwd" = some u →
      u.scheme ≠ "http" ∧ u.scheme ≠ "https") ∧
    (∃ e, PrintPDFFromURL envHP [] "file:///etc/passwd" "HP" =
        (Except.error e, ⟨[], [Event.enumSpawn], []⟩) ∧
      (e = PrintError.invalidURL "file:///etc/passwd" ∨
        ∃ s, e = PrintError.unsupportedScheme s)) :=
  ⟨rfl,
   fun u hu => by
     rw [show parseRequestURI "file:///etc/passwd" =
         some ⟨"file", "///etc/passwd"⟩ from rfl] at hu
     injection hu with hu
     subst hu
     exact ⟨by decide, by decide⟩,
   printPDF_bad_url_no_fetch envHP [] "file:///etc/passwd" "HP" rfl
     (fun u hu => by
       rw [show parseRequestURI "file:///etc/passwd" =
           some ⟨"file", "///etc/passwd"⟩ from rfl] at hu
       injection hu with hu
       subst hu
       exact ⟨by decide, by decide⟩)⟩

/-- C2 (counterexample): the claimed guarantee fails on the
fetch-fails-partway path. With printer HP installed, a 200 response and a
successful temp-file creation, a failing body copy makes PrintPDFFromURL
return a fetch error while the temporary file it created is left behind:
starting from an empty temp directory, the final filesystem still contains
the temp file after the call returns. -/
theorem printPDF_temp_leak_cex :
    (PrintPDFFromURL { envHP with copyOk := false } [] "http://x/doc.pdf" "HP").1 =
      Except.error PrintError.fetchCopy ∧
    (PrintPDFFromURL { envHP with copyOk := false } [] "http://x/doc.pdf" "HP").2.fs =
      ["/tmp/doc.pdf"] :=
  ⟨rfl, rfl⟩

/-- C2 (amended): once the download completes (GET returns 200, the temp
file is created and the body copy succeeds), the temporary file is deleted
before the call returns on both dispatch outcomes — the returned value is
exactly the dispatch result — provided the OS deletion succeeds; but when
the body copy errors after the temp file was created, downloadFile returns
without deleting it and the file remains (the counterexample above). -/
theorem printPDF_cleanup_after_download (env : Env) (fs0 : List String)
    (fileURL printerName : String)
    (hex : (PrinterExists env.enumOutput printerName).1 = Except.ok true)
    (hu : ∃ u, parseRequestURI fileURL = some u ∧
      (u.scheme = "http" ∨ u.scheme = "https"))
    (hst : env.getStatus = some 200) (hcr : env.createOk = true)
    (hcp : env.copyOk = true) (hrm : env.removeOk = true) :
    (PrintPDFFromURL env fs0 fileURL printerName).2.fs = fs0 ∧
    (PrintPDFFromURL env fs0 fileURL printerName).1 =
      (if env.printOk then Except.ok () else Except.error PrintError.printFailed) := by
  obtain ⟨u, hu1, hu2⟩ := hu
  have hb : (u.scheme != "http" && u.scheme != "https") = false := by
    rcases hu2 with h | h <;> simp [h]
  have hdl : downloadFile env fileURL fs0 =
      (Except.ok env.tempPath, env.tempPath :: fs0, [Event.httpGet fileURL]) := by
    unfold downloadFile
    rw [hst, hcr, hcp]
    rfl
  unfold PrintPDFFromURL
  rw [printerExists_pair env.enumOutput printerName true hex, hu1]
  simp only [hb, hdl, hrm]
  exact ⟨List.erase_cons_head env.tempPath fs0, rfl⟩

/-- C2 witness: in the all-success environment envHP, printing
http://x/doc.pdf on HP leaves the temp directory as it started and returns
the dispatch result. -/
theorem printPDF_cleanup_after_download_witness :
    ((PrinterExists envHP.enumOutput "HP").1 = Except.ok true ∧
     (∃ u, parseRequestURI "http://x/doc.pdf" = some u ∧
       (u.scheme = "http" ∨ u.scheme = "https")) ∧
     envHP.getStatus = some 200 ∧ envHP.createOk = true ∧
     envHP.copyOk = true ∧ envHP.removeOk = true) ∧
    (PrintPDFFromURL envHP [] "http://x/doc.pdf" "HP").2.fs = [] ∧
    (PrintPDFFromURL envHP [] "http://x/doc.pdf" "HP").1 =
      (if envHP.printOk then Except.ok () else Except.error PrintError.printFailed) :=
  ⟨⟨rfl, ⟨⟨"http", "//x/doc.pdf"⟩, rfl, Or.inl rfl⟩, rfl, rfl, rfl, rfl⟩,
   printPDF_cleanup_after_download envHP [] "http://x/doc.pdf" "HP" rfl
     ⟨⟨"http", "//x/doc.pdf"⟩, rfl, Or.inl rfl⟩ rfl rfl rfl rfl⟩

/-- C4 (counterexample): a request that fails validation does not cause
zero external process launches. With printer HP installed, the request for
file:///etc/passwd fails with the unsupported-scheme validation error, yet
exactly one external process was launched: the existence check itself
spawned the powershell enumeration before the URL was validated. -/
theorem printPDF_validation_spawns_process_cex :
    isValidationErr (PrintError.unsupportedScheme "file") = true ∧
    (PrintPDFFromURL envHP [] "file:///etc/passwd" "HP").1 =
      Except.error (PrintError.unsupportedScheme "file") ∧
    ((PrintPDFFromURL envHP [] "file:///etc/passwd" "HP").2.events.filter
      isProcessSpawn).length = 1 :=
  ⟨rfl, rfl, rfl⟩

/-- C4 (amended): whenever PrintPDFFromURL returns a validation error
(unknown printer, invalid URL or unsupported scheme), the event trace is
exactly the enumeration spawn of the existence check: no download happens
and neither the print tool nor any further external process is launched —
but the enumeration process itself does run, so the launch count is one,
not zero. -/
theorem printPDF_validation_only_enum_spawn (env : Env) (fs0 : List String)
    (fileURL printerName : String) (e : PrintError)
    (h1 : (PrintPDFFromURL env fs0 fileURL printerName).1 = Except.error e)
    (h2 : isValidationErr e = true) :
    (PrintPDFFromURL env fs0 fileURL printerName).2.events = [Event.enumSpawn] := by
  cases hr : (PrinterExists env.enumOutput printerName).1 with
  | error err =>
    have hp : PrinterExists env.enumOutput printerName =
        (Except.error err, [Event.enumSpawn]) :=
      Prod.ext_iff.mpr ⟨hr, printerExists_events env.enumOutput printerName⟩
    unfold PrintPDFFromURL
    rw [hp]
  | ok ex =>
    have hp := printerExists_pair env.enumOutput printerName ex hr
    cases ex with
    | false =>
      unfold PrintPDFFromURL
      rw [hp]
      rfl
    | true =>
      unfold PrintPDFFromURL at h1 ⊢
      rw [hp] at h1 ⊢
      cases hu : parseRequestURI fileURL with
      | none => rfl
      | some u =>
        rw [hu] at h1
        cases hb : (u.scheme != "http" && u.scheme != "https") with
        | true => simp [hb]
        | false =>
          simp only [hb] at h1
          cases hdl : downloadFile env fileURL fs0 with
          | mk dres drest =>
            obtain ⟨dfs, devs⟩ := drest
            rw [hdl] at h1
            cases dres with
            | error derr =>
              have h3 : (Except.error derr : Except PrintError Unit) =
                  Except.error e := h1
              injection h3 with h3
              subst h3
              have hnv := downloadFile_err_not_validation env fileURL fs0 derr
                (by rw [hdl])
              rw [hnv] at h2
              exact absurd h2 (by decide)
            | ok path =>
              have h3 : (if env.printOk = true then (Except.ok () : Except PrintError Unit)
                  else Except.error PrintError.printFailed) = Except.error e := h1
              cases hpo : env.printOk with
              | true =>
                rw [hpo] at h3
                simp at h3
              | false =>
                rw [hpo] at h3
                simp only [Bool.false_eq_true, if_false, ite_false] at h3
                injection h3 with h3
                subst h3
                exact absurd h2 (by decide)

/-- C4 amended witness: the unknown-printer request for Ghost fails with a
validation error and its trace is exactly the enumeration spawn. -/
theorem printPDF_validation_only_enum_spawn_witness :
    (PrintPDFFromURL envHP [] "http://x/doc.pdf" "Ghost").1 =
      Except.error (PrintError.unknownPrinter "Ghost") ∧
    isValidationErr (PrintError.unknownPrinter "Ghost") = true ∧
    (PrintPDFFromURL envHP [] "http://x/doc.pdf" "Ghost").2.events =
      [Event.enumSpawn] :=
  ⟨rfl, rfl,
   printPDF_validation_only_enum_spawn envHP [] "http://x/doc.pdf" "Ghost"
     (PrintError.unknownPrinter "Ghost") rfl rfl⟩

/-- C9: the value returned by PrintPDFFromURL does not depend on whether
the deferred deletion of the temporary file succeeds: the run whose
os.Remove succeeds and the run whose os.Remove fails return identical
results on every path, so a cleanup failure can never mask the real print
outcome (it is only logged). -/
theorem cleanup_failure_result_independent (env : Env) (fs0 : List String)
    (fileURL printerName : String) :
    (PrintPDFFromURL { env with removeOk := true } fs0 fileURL printerName).1 =
    (PrintPDFFromURL { env with removeOk := false } fs0 fileURL printerName).1 := by
  have hee : ∀ b : Bool,
      ({ env with removeOk := b } : Env).enumOutput = env.enumOutput := fun _ => rfl
  unfold PrintPDFFromURL
  rw [hee true, hee false, downloadFile_removeOk env true fileURL fs0,
      downloadFile_removeOk env false fileURL fs0]
  cases hr : (PrinterExists env.enumOutput printerName).1 with
  | error err =>
    have hp : PrinterExists env.enumOutput printerName =
        (Except.error err, [Event.enumSpawn]) :=
      Prod.ext_iff.mpr ⟨hr, printerExists_events env.enumOutput printerName⟩
    rw [hp]
  | ok ex =>
    rw [printerExists_pair env.enumOutput printerName ex hr]
    cases ex with
    | false => rfl
    | true =>
      cases hu : parseRequestURI fileURL with
      | none => rfl
      | some u =>
        cases hb : (u.scheme != "http" && u.scheme != "https") with
        | true => simp [hb]
        | false =>
          simp only [hb]
          cases hdl : downloadFile env fileURL fs0 with
          | mk dres drest =>
            cases dres <;> rfl

end PrinterMatias
